import Mathlib

/-!
Verification development for the research orchestration engine of the
serper-search-mcp repository.

The embedding follows the TypeScript source:
  * `src/domain/types/research.ts`, `src/domain/types/serper.ts`  — data model
  * `src/infrastructure/config/environment.ts`                    — depth profiles
  * `src/domain/services/researchService.ts`                      — state updates,
    citation extraction, synthesis (`ResearchService`), and agent decision /
    sub-query generation (`AgentService`)
  * `src/application/orchestration/researchOrchestrator.ts`       — request
    validation and the bounded research event loop

Modelling conventions:
  * JavaScript numbers that the engine only compares (temperatures, maxSources)
    are modelled as `Rat`; counters and lengths as `Nat`.
  * JavaScript string truthiness (`!s` is true exactly for the empty string,
    for a string-typed value) is made explicit via `jsOrStr` / `truthyOptStr`.
  * `JSON.parse` of a model reply is external code; a language-model reply is
    therefore embedded as its observable parse outcome: `none` when parsing (or
    the subsequent field access) throws, `some v` when it yields value `v`.
  * `uuidv4()` is a fresh-identifier supply, modelled as a counter threaded
    through the functions that call it.
  * Asynchronous port calls that can reject are modelled with `Except String`
    (the `String` is the thrown error message); the deterministic behaviour of
    the two ports during one run is an `Env` of replies indexed by call count.
  * Every external call is recorded in an event trace, so that theorems can
    speak about the sequence of search / language-model operations performed.
-/

/-- Status of a decomposed sub-query (`SubQuery.status` in research.ts). -/
inductive SQStatus
  | pending
  | completed
  | failed
deriving DecidableEq, Repr

/-- Status of the overall research process (`ResearchState.status`). -/
inductive Status
  | in_progress
  | complete
deriving DecidableEq, Repr

/-- One organic entry of a Serper search payload (serper.ts `OrganicResult`).
Fields the engine never reads (sitelinks, attributes, date) are omitted.
An absent `title`/`link`/`snippet` behaves like `""` in every truthiness
check the engine performs, so the fields are plain strings. -/
structure OrganicResult where
  title : String
  link : String
  snippet : String
  position : Nat
deriving DecidableEq, Repr

/-- Serper search payload (serper.ts `SerperResponse`).  The engine only ever
reads `organic`, guarded by `results.organic && Array.isArray(results.organic)`;
`none` models a missing or non-array field.  Unread fields are omitted. -/
structure SerperResponse where
  organic : Option (List OrganicResult)
deriving DecidableEq, Repr

/-- A decomposed sub-query (research.ts `SubQuery`); `id` is a `uuidv4()`
value, modelled as a fresh counter value. -/
structure SubQuery where
  id : Nat
  query : String
  rationale : String
  status : SQStatus
deriving DecidableEq, Repr

/-- One `{query, rationale}` pair as parsed from the sub-query generation
model output (the element shape of `response.subQueries`). -/
structure SQPair where
  query : String
  rationale : String
deriving DecidableEq, Repr

/-- A recorded search (research.ts `SearchResult`). -/
structure SearchResult where
  query : String
  results : SerperResponse
  timestamp : Nat
deriving DecidableEq, Repr

/-- A citation derived from an organic entry (research.ts `Citation`). -/
structure Citation where
  id : Nat
  title : String
  url : String
  snippet : String
  relevanceScore : Rat
deriving DecidableEq, Repr

/-- The aggregate research state (research.ts `ResearchState`). -/
structure ResearchState where
  originalQuery : String
  subQueries : List SubQuery
  searchResults : List SearchResult
  completedSubQueries : List String
  pendingSubQueries : List String
  synthesizedResults : Option String
  citations : List Citation
  status : Status
deriving DecidableEq, Repr

/-- The terminal output (research.ts `ResearchResult`). -/
structure ResearchResult where
  answer : String
  citations : List Citation
  subQueriesGenerated : Nat
  subQueriesCompleted : Nat
  searchesPerformed : Nat
deriving DecidableEq, Repr

/-- An agent decision as parsed from model output (research.ts
`AgentDecision`); `query` and `rationale` may be absent in the raw JSON, so
they are `Option String`, and `action` is an arbitrary string until the
engine validates it. -/
structure AgentDecision where
  action : String
  query : Option String
  rationale : Option String
deriving DecidableEq, Repr

/-- The research request (research.ts `ResearchRequest`); `depth` is an
arbitrary optional string until validated, `maxSources` an optional number. -/
structure ResearchRequest where
  query : String
  depth : Option String
  maxSources : Option Rat
deriving DecidableEq, Repr

/-- Error codes used by the orchestrator (`McpError` codes). -/
inductive ErrCode
  | invalidParams
  | internalError
deriving DecidableEq, Repr

/-- An engine-level failure: an `McpError` with code and message, or a raw
JavaScript error (as propagated unwrapped out of synthesis). -/
inductive EngineError
  | mcp (code : ErrCode) (message : String)
  | js (message : String)
deriving DecidableEq, Repr

/-- JavaScript `o || d` for an optional string value: `undefined` and `""`
are falsy, any other string is itself. -/
def jsOrStr (o : Option String) (d : String) : String :=
  match o with
  | none => d
  | some s => if s = "" then d else s

/-- JavaScript truthiness of an optional string: true exactly for a present,
non-empty string. -/
def truthyOptStr (o : Option String) : Bool :=
  match o with
  | none => false
  | some s => if s = "" then false else true

/-- Temperature block of a depth profile (environment.ts
`researchDepthSettings[depth].temperature`). -/
structure TempProfile where
  decision : Rat
  subqueries : Rat
  synthesis : Rat
deriving DecidableEq, Repr

/-- One depth profile (environment.ts `researchDepthSettings[depth]`). -/
structure DepthSettings where
  maxSubQueries : Nat
  maxSearchesPerQuery : Nat
  maxIterations : Nat
  temperature : TempProfile
deriving DecidableEq, Repr

/-- The three valid depth labels, as an enumeration. -/
inductive Depth
  | basic
  | standard
  | deep
deriving DecidableEq, Repr

/-- The string label of a depth. -/
def depthLabel : Depth → String
  | Depth.basic => "basic"
  | Depth.standard => "standard"
  | Depth.deep => "deep"

/-- The depth profiles from environment.ts: basic `{4, 1, 6, {0.3, 0.7, 0.4}}`,
standard `{7, 2, 15, {0.25, 0.65, 0.35}}`, deep `{12, 4, 25, {0.2, 0.6, 0.3}}`. -/
def settingsOf : Depth → DepthSettings
  | Depth.basic => ⟨4, 1, 6, ⟨3/10, 7/10, 2/5⟩⟩
  | Depth.standard => ⟨7, 2, 15, ⟨1/4, 13/20, 7/20⟩⟩
  | Depth.deep => ⟨12, 4, 25, ⟨1/5, 3/5, 3/10⟩⟩

/-- String-indexed lookup `config.researchDepthSettings[s]`: `none` models the
JavaScript `undefined` obtained for any other key. -/
def researchDepthSettings (s : String) : Option DepthSettings :=
  if s = "basic" then some (settingsOf Depth.basic)
  else if s = "standard" then some (settingsOf Depth.standard)
  else if s = "deep" then some (settingsOf Depth.deep)
  else none

/-- Orchestrator `getMaxIterations`: `config.researchDepthSettings[depth]
.maxIterations`.  The orchestrator only calls it with a label for which the
lookup succeeds (validation plus the `|| 'standard'` default guarantee this);
the `none` branch is unreachable there. -/
def getMaxIterations (s : String) : Nat :=
  match researchDepthSettings s with
  | some c => c.maxIterations
  | none => 0

/-- ResearchService.initializeState. -/
def initializeState (request : ResearchRequest) : ResearchState :=
  { originalQuery := request.query
    subQueries := []
    searchResults := []
    completedSubQueries := []
    pendingSubQueries := []
    synthesizedResults := none
    citations := []
    status := Status.in_progress }

/-- Recursion underlying `extractCitationsFromResults`: the `forEach` walks
every organic entry with its index `i`; an entry with truthy `title` and
`link` pushes a citation whose `id` is a fresh uuid (counter `n`) and whose
`relevanceScore` is `1 - (index * 0.1)`; other entries advance the index but
produce nothing. -/
def extractAux : List OrganicResult → Nat → Nat → List Citation × Nat
  | [], _, n => ([], n)
  | r :: rest, i, n =>
    if r.title ≠ "" ∧ r.link ≠ "" then
      let t := extractAux rest (i + 1) (n + 1)
      (⟨n, r.title, r.link, r.snippet, 1 - (i : Rat) * (1/10)⟩ :: t.1, t.2)
    else extractAux rest (i + 1) n

/-- ResearchService.extractCitationsFromResults: nothing when `organic` is
missing or not an array, otherwise one citation per entry with truthy title
and link.  Returns the citations together with the advanced uuid counter. -/
def extractCitationsFromResults (results : SerperResponse) (n : Nat) :
    List Citation × Nat :=
  match results.organic with
  | none => ([], n)
  | some org => extractAux org 0 n

/-- ResearchService.updateStateWithResults: append the search result, record
the query as completed (if not already), drop it from the pending queue, flip
the matching sub-queries to completed, and append the extracted citations. -/
def updateStateWithResults (st : ResearchState) (q : String)
    (results : SerperResponse) (ts : Nat) (n : Nat) : ResearchState × Nat :=
  let e := extractCitationsFromResults results n
  ({ st with
      searchResults := st.searchResults ++ [⟨q, results, ts⟩]
      completedSubQueries :=
        if q ∈ st.completedSubQueries then st.completedSubQueries
        else st.completedSubQueries ++ [q]
      pendingSubQueries := st.pendingSubQueries.filter (fun p => p ≠ q)
      subQueries := st.subQueries.map (fun sq =>
        if sq.query = q then { sq with status := SQStatus.completed } else sq)
      citations := st.citations ++ e.1 },
   e.2)

/-- The known-query set of a state, in the order the source builds its `Set`:
`completedSubQueries`, then `pendingSubQueries`, then the query texts of
`subQueries`. -/
def existingQueriesOf (st : ResearchState) : List String :=
  st.completedSubQueries ++ st.pendingSubQueries ++
    st.subQueries.map (fun sq => sq.query)

/-- The `forEach` of `updateStateWithSubQueries`: a sub-query whose text is in
the accumulated set `ex` is skipped; otherwise it is appended to both
`pendingSubQueries` and `subQueries` and its text added to `ex`. -/
def mergeSubQueriesAux : ResearchState → List String → List SubQuery → ResearchState
  | st, _, [] => st
  | st, ex, sq :: rest =>
    if sq.query ∈ ex then mergeSubQueriesAux st ex rest
    else
      mergeSubQueriesAux
        { st with
            pendingSubQueries := st.pendingSubQueries ++ [sq.query]
            subQueries := st.subQueries ++ [sq] }
        (sq.query :: ex) rest

/-- ResearchService.updateStateWithSubQueries. -/
def updateStateWithSubQueries (st : ResearchState) (subQueries : List SubQuery) :
    ResearchState :=
  mergeSubQueriesAux st (existingQueriesOf st) subQueries

/-- AgentService.makeDecision fallback (the `catch` branch): complete when any
search result exists, otherwise search `state.pendingSubQueries[0] ||
state.originalQuery`, with the fixed fallback rationale. -/
def fallbackDecision (st : ResearchState) : AgentDecision :=
  { action :=
      if st.searchResults.length > 0 then "research_complete" else "search"
    query := some (jsOrStr st.pendingSubQueries.head? st.originalQuery)
    rationale := some "Fallback decision due to parsing error" }

/-- Validation applied to a parsed decision: a parse failure, an action
outside the three enumerated values, or a `search` action with a falsy
`query` all route to the fallback. -/
def decisionInvalid (parsed : Option AgentDecision) : Bool :=
  match parsed with
  | none => true
  | some d =>
    if d.action = "search" ∨ d.action = "generate_subqueries" ∨
        d.action = "research_complete" then
      if d.action = "search" ∧ truthyOptStr d.query = false then true else false
    else true

/-- The pure core of AgentService.makeDecision, applied to the parse outcome
of the decision reply: the validated decision, or the fallback. -/
def makeDecisionPure (st : ResearchState) (parsed : Option AgentDecision) :
    AgentDecision :=
  match parsed with
  | none => fallbackDecision st
  | some d =>
    if d.action = "search" ∨ d.action = "generate_subqueries" ∨
        d.action = "research_complete" then
      if d.action = "search" ∧ truthyOptStr d.query = false then
        fallbackDecision st
      else d
    else fallbackDecision st

/-- Conversion of parsed `{query, rationale}` pairs into `SubQuery` values:
each gets a fresh uuid (consecutive counter values) and status `pending`. -/
def subQueriesFromPairs : List SQPair → Nat → List SubQuery
  | [], _ => []
  | p :: rest, n =>
    ⟨n, p.query, p.rationale, SQStatus.pending⟩ :: subQueriesFromPairs rest (n + 1)

/-- The pure core of AgentService.generateSubQueries, applied to the parse
outcome of the sub-query reply: on a parse (or field-access) failure, the
single fallback sub-query carrying the original query verbatim; on success,
one `SubQuery` per parsed pair, with no truncation.  Returns the list and the
advanced uuid counter. -/
def generateSubQueriesPure (query : String) (parsed : Option (List SQPair))
    (n : Nat) : List SubQuery × Nat :=
  match parsed with
  | none =>
    ([⟨n, query, "Direct search of the original query due to parsing error",
        SQStatus.pending⟩], n + 1)
  | some l => (subQueriesFromPairs l n, n + l.length)

/-- Whitespace characters removed by JavaScript `String.prototype.trim` (the
common ASCII ones; the engine's validation only distinguishes all-whitespace
queries from the rest). -/
def isJsWhitespace (c : Char) : Bool :=
  c = ' ' ∨ c = '\t' ∨ c = '\n' ∨ c = '\r' ∨ c = '\x0b' ∨ c = '\x0c'

/-- JavaScript `s.trim()`: strip leading and trailing whitespace. -/
def jsTrim (s : String) : String :=
  ⟨((s.data.dropWhile isJsWhitespace).reverse.dropWhile
      isJsWhitespace).reverse⟩

/-- ResearchOrchestrator.validateRequest, as an optional rejection.  Note the
JavaScript truthiness guards: `request.depth && ...` skips the depth check for
an empty-string depth, and `request.maxSources && ...` skips the maxSources
check for the number `0`. -/
def validateRequest (request : ResearchRequest) : Option EngineError :=
  if jsTrim request.query = "" then
    some (EngineError.mcp ErrCode.invalidParams "Query must be non-empty")
  else if truthyOptStr request.depth = true ∧
      ¬(request.depth.getD "" = "basic" ∨ request.depth.getD "" = "standard" ∨
        request.depth.getD "" = "deep") then
    some (EngineError.mcp ErrCode.invalidParams
      "Depth must be one of: basic, standard, deep")
  else
    match request.maxSources with
    | some q =>
      if q ≠ 0 ∧ q < 1 then
        some (EngineError.mcp ErrCode.invalidParams
          "maxSources must be a positive number")
      else none
    | none => none

/-- Kind of a language-model call made by the engine. -/
inductive LLMKind
  | decision
  | subqueries
  | synthesis
deriving DecidableEq, Repr

/-- One observable external operation of the engine: a search-port call with
its query, or a language-model call with the sampling parameters passed to
`generateCompletion`. -/
inductive Event
  | search (query : String)
  | llm (kind : LLMKind) (temperature : Rat) (maxTokens : Nat)
deriving DecidableEq, Repr

/-- A language-model reply, embedded by its observable effects: `failure` is
the rejection message when the `generateCompletion` promise rejects; the text
itself is carried by `text`; `asDecision` and `asSubQueries` are the parse
outcomes of the text under the two JSON shapes the engine tries (`none` when
`JSON.parse` or the subsequent field access throws). -/
structure LLMReply where
  failure : Option String
  text : String
  asDecision : Option AgentDecision
  asSubQueries : Option (List SQPair)

/-- Deterministic behaviour of the external ports during one run: the k-th
language-model reply, the k-th search outcome (rejection message or payload),
and the value of `Date.now()` at the k-th search. -/
structure Env where
  llm : Nat → LLMReply
  search : Nat → Except String SerperResponse
  time : Nat → Nat

/-- Run bookkeeping: numbers of language-model and search calls made so far,
the uuid counter, and the trace of external operations. -/
structure Ctx where
  nLLM : Nat
  nSearch : Nat
  nextId : Nat
  trace : List Event
deriving DecidableEq, Repr

/-- The initial bookkeeping state. -/
def emptyCtx : Ctx := ⟨0, 0, 0, []⟩

/-- One `llmAdapter.generateCompletion` call: consumes the next reply of the
environment and records the sampling parameters in the trace. -/
def llmCall (env : Env) (ctx : Ctx) (kind : LLMKind) (temperature : Rat)
    (maxTokens : Nat) : LLMReply × Ctx :=
  (env.llm ctx.nLLM,
   { ctx with
      nLLM := ctx.nLLM + 1
      trace := ctx.trace ++ [Event.llm kind temperature maxTokens] })

/-- One `searchService.performSearch` call. -/
def searchCall (env : Env) (ctx : Ctx) (q : String) :
    Except String SerperResponse × Ctx :=
  (env.search ctx.nSearch,
   { ctx with
      nSearch := ctx.nSearch + 1
      trace := ctx.trace ++ [Event.search q] })

/-- AgentService.makeDecision: calls the model at temperature 0.2 with
maxTokens 500 (these literals are hardcoded in the source), then applies
parsing, validation and the fallback.  A rejected model call propagates. -/
def makeDecision (env : Env) (st : ResearchState) (ctx : Ctx) :
    Except (String × Ctx) (AgentDecision × Ctx) :=
  let r := llmCall env ctx LLMKind.decision (1/5) 500
  match r.1.failure with
  | some m => Except.error (m, r.2)
  | none => Except.ok (makeDecisionPure st r.1.asDecision, r.2)

/-- AgentService.generateSubQueries: reads the depth profile (the JavaScript
default parameter substitutes `'standard'` only for an absent depth, so an
empty-string depth reaches the lookup and the `.maxSubQueries` access on
`undefined` throws), calls the model at temperature 0.7 with maxTokens 1000
(hardcoded in the source), and converts the parse outcome.  The profile's
`maxSubQueries` only feeds the prompt text; it does not bound the result. -/
def generateSubQueries (env : Env) (query : String) (depthArg : Option String)
    (ctx : Ctx) : Except (String × Ctx) (List SubQuery × Ctx) :=
  match researchDepthSettings (depthArg.getD "standard") with
  | none =>
    Except.error ("Cannot read properties of undefined", ctx)
  | some _ =>
    let r := llmCall env ctx LLMKind.subqueries (7/10) 1000
    match r.1.failure with
    | some m => Except.error (m, r.2)
    | none =>
      let g := generateSubQueriesPure query r.1.asSubQueries r.2.nextId
      Except.ok (g.1, { r.2 with nextId := g.2 })

/-- One search plus state fold, as performed by the orchestrator loop:
`performSearch` followed by `updateStateWithResults` (whose `Date.now()` is
the environment's clock at the current search index). -/
def searchStep (env : Env) (st : ResearchState) (q : String) (ctx : Ctx) :
    Except (String × Ctx) (ResearchState × Ctx) :=
  let ts := env.time ctx.nSearch
  let r := searchCall env ctx q
  match r.1 with
  | Except.error m => Except.error (m, r.2)
  | Except.ok payload =>
    let u := updateStateWithResults st q payload ts r.2.nextId
    Except.ok (u.1, { r.2 with nextId := u.2 })

/-- One iteration body of the `while` loop of
ResearchOrchestrator.executeResearch (the contents of the `try` block):
initial decomposition when no sub-queries exist at all, otherwise draining of
the head pending sub-query, otherwise a decision step applying the agent's
action.  An error value is a thrown exception together with the bookkeeping
at the throw point. -/
def iterate (env : Env) (originalQuery : String) (depthArg : Option String)
    (st : ResearchState) (ctx : Ctx) :
    Except (String × Ctx) (ResearchState × Ctx) :=
  if st.pendingSubQueries.isEmpty && st.subQueries.isEmpty then
    match generateSubQueries env originalQuery depthArg ctx with
    | Except.error e => Except.error e
    | Except.ok (sqs, ctx2) => Except.ok (updateStateWithSubQueries st sqs, ctx2)
  else if st.pendingSubQueries.isEmpty = false then
    searchStep env st (st.pendingSubQueries.headD "") ctx
  else
    match makeDecision env st ctx with
    | Except.error e => Except.error e
    | Except.ok (dec, ctx2) =>
      if dec.action = "search" ∧ truthyOptStr dec.query = true then
        searchStep env st (dec.query.getD "") ctx2
      else if dec.action = "generate_subqueries" then
        match generateSubQueries env originalQuery depthArg ctx2 with
        | Except.error e => Except.error e
        | Except.ok (sqs, ctx3) =>
          Except.ok (updateStateWithSubQueries st sqs, ctx3)
      else if dec.action = "research_complete" then
        Except.ok ({ st with status := Status.complete }, ctx2)
      else Except.ok (st, ctx2)

/-- Outcome of the research loop: the final state or the fatal error message,
the final bookkeeping, and the number of iterations performed. -/
structure LoopResult where
  outcome : Except String ResearchState
  ctx : Ctx
  iterations : Nat
deriving Repr

/-- The `while (state.status !== 'complete' && iterationCount < maxIterations)`
loop, with the remaining iteration budget as fuel.  An exception in the body
is caught: with accumulated search results the loop force-completes and
breaks, with none it turns fatal. -/
def runLoop (env : Env) (originalQuery : String) (depthArg : Option String) :
    Nat → ResearchState → Ctx → LoopResult
  | 0, st, ctx => ⟨Except.ok st, ctx, 0⟩
  | fuel + 1, st, ctx =>
    if st.status = Status.complete then ⟨Except.ok st, ctx, 0⟩
    else
      match iterate env originalQuery depthArg st ctx with
      | Except.ok (st2, ctx2) =>
        let r := runLoop env originalQuery depthArg fuel st2 ctx2
        ⟨r.outcome, r.ctx, r.iterations + 1⟩
      | Except.error (m, ctx2) =>
        if st.searchResults.isEmpty then ⟨Except.error m, ctx2, 1⟩
        else ⟨Except.ok { st with status := Status.complete }, ctx2, 1⟩

/-- ResearchService.synthesizeResults: one model call at temperature 0.3 with
maxTokens 2000 (hardcoded in the source); on success the reply text becomes
the answer, alongside the citations and the three counts from the state. -/
def synthesizeResults (env : Env) (st : ResearchState) (ctx : Ctx) :
    Except (String × Ctx) (ResearchResult × Ctx) :=
  let r := llmCall env ctx LLMKind.synthesis (3/10) 2000
  match r.1.failure with
  | some m => Except.error (m, r.2)
  | none =>
    Except.ok
      ({ answer := r.1.text
         citations := st.citations
         subQueriesGenerated := st.subQueries.length
         subQueriesCompleted := st.completedSubQueries.length
         searchesPerformed := st.searchResults.length }, r.2)

/-- Observable output of one `executeResearch` run: the result or error, the
trace of external operations, the number of loop iterations performed, and
the state handed to synthesis (`none` when synthesis was never reached). -/
structure RunOutput where
  result : Except EngineError ResearchResult
  trace : List Event
  iterations : Nat
  finalState : Option ResearchState

/-- Body of ResearchOrchestrator.executeResearch after validation passes:
initialize state, run the loop with the depth profile's iteration budget
(`request.depth || 'standard'`), force completion if needed, and synthesize.
A fatal loop error is wrapped as the internal-error `Research failed: ...`;
a synthesis rejection propagates unwrapped. -/
def executeResearchCore (env : Env) (request : ResearchRequest) : RunOutput :=
  let st0 := initializeState request
  let lr := runLoop env request.query request.depth
      (getMaxIterations (jsOrStr request.depth "standard")) st0 emptyCtx
  match lr.outcome with
  | Except.error m =>
    ⟨Except.error (EngineError.mcp ErrCode.internalError
        ("Research failed: " ++ m)),
     lr.ctx.trace, lr.iterations, none⟩
  | Except.ok st =>
    let finalState :=
      if st.status = Status.complete then st
      else { st with status := Status.complete }
    match synthesizeResults env finalState lr.ctx with
    | Except.error (m, ctx2) =>
      ⟨Except.error (EngineError.js m), ctx2.trace, lr.iterations,
       some finalState⟩
    | Except.ok (res, ctx2) =>
      ⟨Except.ok res, ctx2.trace, lr.iterations, some finalState⟩

/-- ResearchOrchestrator.executeResearch: an invalid request is rejected
before any state is created or any port is called; otherwise the research
loop and synthesis run. -/
def executeResearch (env : Env) (request : ResearchRequest) : RunOutput :=
  match validateRequest request with
  | some e => ⟨Except.error e, [], 0, none⟩
  | none => executeResearchCore env request

/-- Recognizer for a synthesis language-model call in the trace. -/
def isSynthesisEvent : Event → Bool
  | Event.llm LLMKind.synthesis _ _ => true
  | _ => false

/-- Number of synthesis calls recorded in a trace. -/
def countSynth (tr : List Event) : Nat := tr.countP isSynthesisEvent

/-- Events the loop body may emit: search calls, decision calls at the fixed
sampling parameters 0.2/500, sub-query calls at the fixed 0.7/1000 — and no
synthesis calls. -/
def loopEventOk : Event → Bool
  | Event.search _ => true
  | Event.llm LLMKind.decision t m => decide (t = 1/5) && decide (m = 500)
  | Event.llm LLMKind.subqueries t m => decide (t = 7/10) && decide (m = 1000)
  | Event.llm LLMKind.synthesis _ _ => false

/-- Events any run may emit: loop events, or synthesis calls at the fixed
sampling parameters 0.3/2000. -/
def fixedEvent : Event → Bool
  | Event.search _ => true
  | Event.llm LLMKind.decision t m => decide (t = 1/5) && decide (m = 500)
  | Event.llm LLMKind.subqueries t m => decide (t = 7/10) && decide (m = 1000)
  | Event.llm LLMKind.synthesis t m => decide (t = 3/10) && decide (m = 2000)

/-- Trace `b` extends trace `a` by loop events only. -/
def goodExtension (a b : List Event) : Prop :=
  ∃ t, b = a ++ t ∧ ∀ e ∈ t, loopEventOk e = true

/-- A reply whose text parses under neither JSON shape (for example the empty
string, or free-form prose). -/
def replyUnparseable : LLMReply := ⟨none, "", none, none⟩

/-- A reply whose `generateCompletion` promise rejects with message "boom". -/
def replyRejected : LLMReply := ⟨some "boom", "", none, none⟩

/-- An environment whose language model always rejects and whose search port
always fails. -/
def envAllFail : Env :=
  { llm := fun _ => replyRejected
    search := fun _ => Except.error "boom"
    time := fun _ => 0 }

/-- An environment whose model replies never parse and whose searches all
succeed with an empty organic list. -/
def envNoParse : Env :=
  { llm := fun _ => replyUnparseable
    search := fun _ => Except.ok ⟨some []⟩
    time := fun _ => 0 }

/-- The final state of the `envNoParse` run on query "q": the fallback
sub-query was searched, the fallback decision then completed the research. -/
def stFinalNoParse : ResearchState :=
  { originalQuery := "q"
    subQueries := [⟨0, "q",
      "Direct search of the original query due to parsing error",
      SQStatus.completed⟩]
    searchResults := [⟨"q", ⟨some []⟩, 0⟩]
    completedSubQueries := ["q"]
    pendingSubQueries := []
    synthesizedResults := none
    citations := []
    status := Status.complete }

/-- A search payload with a single organic entry titled "T" linking to "u". -/
def payloadT : SerperResponse := ⟨some [⟨"T", "u", "sn", 1⟩]⟩

/-- An environment driving one full basic-depth run: the first model call
parses as one sub-query pair, the second as a `research_complete` decision,
the third is the synthesis text; every search succeeds with `payloadT`. -/
def envBasicRun : Env :=
  { llm := fun k =>
      if k = 0 then ⟨none, "", none, some [⟨"s1", "r1"⟩]⟩
      else if k = 1 then
        ⟨none, "", some ⟨"research_complete", none, some "done"⟩, none⟩
      else ⟨none, "final answer", none, none⟩
    search := fun _ => Except.ok payloadT
    time := fun _ => 0 }

/-- A basic-depth request. -/
def reqBasic : ResearchRequest := ⟨"topic", some "basic", none⟩

/-- A request with maxSources 0: zero is falsy in JavaScript, so the
maxSources guard of validateRequest never fires for it. -/
def reqZeroSources : ResearchRequest := ⟨"q", none, some 0⟩

/-- A request with an empty query. -/
def reqEmptyQuery : ResearchRequest := ⟨"", none, none⟩

/-- Five parsed sub-query pairs, one more than the basic profile's
`maxSubQueries` of 4. -/
def pairsFive : List SQPair :=
  [⟨"a", "ra"⟩, ⟨"b", "rb"⟩, ⟨"c", "rc"⟩, ⟨"d", "rd"⟩, ⟨"e", "re"⟩]

/-- An environment whose model always returns five parsed sub-query pairs. -/
def envFivePairs : Env :=
  { llm := fun _ => ⟨none, "", none, some pairsFive⟩
    search := fun _ => Except.error "x"
    time := fun _ => 0 }

/-- A state whose pending queue holds exactly the empty string: a pending
sub-query exists, but it is falsy. -/
def cStateEdge : ResearchState :=
  { originalQuery := "orig"
    subQueries := []
    searchResults := []
    completedSubQueries := []
    pendingSubQueries := [""]
    synthesizedResults := none
    citations := []
    status := Status.in_progress }

/-- Length of the converted sub-query list equals the number of parsed pairs. -/
theorem subQueriesFromPairs_length :
    ∀ (l : List SQPair) (n : Nat), (subQueriesFromPairs l n).length = l.length
  | [], _ => rfl
  | _ :: rest, n => by
    simp [subQueriesFromPairs, subQueriesFromPairs_length rest (n + 1)]

/-- C3 counterexample: the model output `{"subQueries": []}` is valid JSON
whose `subQueries` field is an empty array, so parsing succeeds with `some []`
and `generateSubQueries` returns the empty list — the claimed lower bound of
one sub-query fails on this output. -/
theorem generateSubQueries_empty_output :
    (generateSubQueriesPure "q" (some []) 0).1 = [] ∧
      ¬(1 ≤ (generateSubQueriesPure "q" (some []) 0).1.length) := by
  exact ⟨rfl, by decide⟩

/-- C3 (amended): on parse failure `generateSubQueries` returns exactly the
single fallback sub-query carrying the original query verbatim, the fixed
fallback rationale and status `pending`; on parse success it returns one
sub-query per parsed pair, so the result is empty exactly when the model
returned a valid-JSON empty `subQueries` array. -/
theorem generateSubQueries_fallback_shape :
    ∀ (q : String) (n : Nat) (l : List SQPair),
      (generateSubQueriesPure q none n).1 =
        [⟨n, q, "Direct search of the original query due to parsing error",
          SQStatus.pending⟩] ∧
      (generateSubQueriesPure q (some l) n).1.length = l.length := by
  intro q n l
  exact ⟨rfl, subQueriesFromPairs_length l n⟩

/-- C8 counterexample: at depth basic (maxSubQueries = 4), a model output
parsing to five pairs makes `generateSubQueries` return five sub-queries —
the source never truncates the parsed list to the profile bound. -/
theorem generateSubQueries_no_truncation :
    generateSubQueries envFivePairs "q" (some "basic") emptyCtx =
      Except.ok
        ([⟨0, "a", "ra", SQStatus.pending⟩, ⟨1, "b", "rb", SQStatus.pending⟩,
          ⟨2, "c", "rc", SQStatus.pending⟩, ⟨3, "d", "rd", SQStatus.pending⟩,
          ⟨4, "e", "re", SQStatus.pending⟩],
         ⟨1, 0, 5, [Event.llm LLMKind.subqueries (7/10) 1000]⟩) ∧
      (settingsOf Depth.basic).maxSubQueries = 4 ∧ ¬((5 : Nat) ≤ 4) := by
  exact ⟨rfl, rfl, by decide⟩

/-- C8 (amended): the length of the returned list equals the number of pairs
parsed from the model output — the depth profile's `maxSubQueries` only sizes
the request in the prompt and does not bound the result; the bound does hold
on the parse-failure path, whose single fallback entry is within every
profile's limit. -/
theorem generateSubQueries_length :
    ∀ (d : Depth) (q : String) (n : Nat) (l : List SQPair),
      (generateSubQueriesPure q none n).1.length ≤ (settingsOf d).maxSubQueries ∧
      (generateSubQueriesPure q (some l) n).1.length = l.length := by
  intro d q n l
  refine ⟨?_, subQueriesFromPairs_length l n⟩
  cases d <;> simp [generateSubQueriesPure, settingsOf]

/-- Any parse outcome that fails validation is mapped to the fallback
decision. -/
theorem makeDecisionPure_invalid (st : ResearchState)
    (p : Option AgentDecision) (h : decisionInvalid p = true) :
    makeDecisionPure st p = fallbackDecision st := by
  cases p with
  | none => rfl
  | some d =>
    simp only [makeDecisionPure]
    simp only [decisionInvalid] at h
    by_cases h1 : d.action = "search" ∨ d.action = "generate_subqueries" ∨
        d.action = "research_complete"
    · rw [if_pos h1] at h ⊢
      by_cases h2 : d.action = "search" ∧ truthyOptStr d.query = false
      · rw [if_pos h2]
      · rw [if_neg h2] at h
        exact absurd h (by simp)
    · rw [if_neg h1]

/-- Explicit form of the fallback decision. -/
theorem fallbackDecision_eq (st : ResearchState) :
    fallbackDecision st =
      ⟨(if st.searchResults = [] then "search" else "research_complete"),
       some (match st.pendingSubQueries with
             | [] => st.originalQuery
             | q :: _ => if q = "" then st.originalQuery else q),
       some "Fallback decision due to parsing error"⟩ := by
  cases hp : st.pendingSubQueries with
  | nil => cases hs : st.searchResults <;>
      simp [fallbackDecision, jsOrStr, hp, hs]
  | cons a t => cases hs : st.searchResults <;>
      simp [fallbackDecision, jsOrStr, hp, hs]

/-- C4 counterexample: with pending queue `[""]` a first pending sub-query
exists, yet the fallback searches the original query — `pendingSubQueries[0]
|| originalQuery` treats the empty string as absent, so the fallback is not
always "the first pending sub-query if one exists". -/
theorem makeDecision_fallback_empty_pending :
    cStateEdge.pendingSubQueries = [""] ∧
      (makeDecisionPure cStateEdge none).action = "search" ∧
      (makeDecisionPure cStateEdge none).query = some "orig" ∧
      ("orig" : String) ≠ "" := by
  refine ⟨rfl, rfl, rfl, by decide⟩

/-- C4 (amended): on any parse or validation failure `makeDecision` returns,
without throwing, the deterministic fallback — `research_complete` when a
search result exists, otherwise `search` for the first pending sub-query if
one exists and is non-empty (JavaScript `||` treats an empty string like an
absent one), else the original query verbatim, with the fixed fallback
rationale; two forced failures on the same state yield the same decision. -/
theorem makeDecision_fallback_deterministic :
    ∀ (st : ResearchState) (p p2 : Option AgentDecision),
      (decisionInvalid p = true → makeDecisionPure st p = fallbackDecision st) ∧
      fallbackDecision st =
        ⟨(if st.searchResults = [] then "search" else "research_complete"),
         some (match st.pendingSubQueries with
               | [] => st.originalQuery
               | q :: _ => if q = "" then st.originalQuery else q),
         some "Fallback decision due to parsing error"⟩ ∧
      (decisionInvalid p = true → decisionInvalid p2 = true →
        makeDecisionPure st p = makeDecisionPure st p2) := by
  intro st p p2
  refine ⟨makeDecisionPure_invalid st p, fallbackDecision_eq st, ?_⟩
  intro h1 h2
  rw [makeDecisionPure_invalid st p h1, makeDecisionPure_invalid st p2 h2]

/-- Witness for the amended C4 theorem at a concrete state and two distinct
forced failures. -/
theorem makeDecision_fallback_deterministic_witness :
    decisionInvalid none = true ∧
      decisionInvalid (some ⟨"dance", none, none⟩) = true ∧
      makeDecisionPure (initializeState reqBasic) none =
        makeDecisionPure (initializeState reqBasic)
          (some ⟨"dance", none, none⟩) := by
  refine ⟨by decide, by decide, ?_⟩
  exact (makeDecision_fallback_deterministic (initializeState reqBasic) none
    (some ⟨"dance", none, none⟩)).2.2 (by decide) (by decide)

/-- Shape of the citations extracted by the `forEach` walk starting at index
`i` with uuid counter `n`: one citation per entry with truthy title and link,
carrying that entry's title and link and the score `1 - 0.1 * index`. -/
theorem extractAux_spec :
    ∀ (org : List OrganicResult) (i n : Nat),
      (extractAux org i n).1.map (fun c => (c.title, c.url, c.relevanceScore)) =
        ((List.enumFrom i org).filter
            (fun p => decide (p.2.title ≠ "" ∧ p.2.link ≠ ""))).map
          (fun p => (p.2.title, p.2.link, 1 - (p.1 : Rat) * (1/10)))
  | [], _, _ => rfl
  | r :: rest, i, n => by
    by_cases h : r.title ≠ "" ∧ r.link ≠ ""
    · simp [extractAux, h, List.enumFrom, extractAux_spec rest (i + 1) (n + 1)]
    · simp [extractAux, h, List.enumFrom, extractAux_spec rest (i + 1) n]

/-- Number of citations extracted equals the number of entries passing the
title-and-link check, for any starting index and counter. -/
theorem extractAux_length :
    ∀ (org : List OrganicResult) (i n : Nat),
      (extractAux org i n).1.length =
        org.countP (fun r => decide (r.title ≠ "" ∧ r.link ≠ ""))
  | [], _, _ => rfl
  | r :: rest, i, n => by
    by_cases h : r.title ≠ "" ∧ r.link ≠ ""
    · simp [extractAux, h, List.countP_cons, extractAux_length rest (i + 1) (n + 1)]
    · simp [extractAux, h, List.countP_cons, extractAux_length rest (i + 1) n]

/-- C6: citation extraction yields exactly one citation per organic entry
with a (truthy) title and link, unconditionally — no relevance cutoff — with
`relevanceScore = 1 - 0.1 * position_index` over the raw array index and no
floor (the formula itself goes negative past index 10); and folding a search
result into a state appends the extracted citations, so the citations list
never shrinks. -/
theorem citations_unconditional_with_position_score :
    (∀ (res : SerperResponse) (n : Nat),
      (extractCitationsFromResults res n).1.length =
        (res.organic.getD []).countP
          (fun r => decide (r.title ≠ "" ∧ r.link ≠ ""))) ∧
    (∀ (res : SerperResponse) (n : Nat),
      (extractCitationsFromResults res n).1.map
          (fun c => (c.title, c.url, c.relevanceScore)) =
        ((res.organic.getD []).enum.filter
            (fun p => decide (p.2.title ≠ "" ∧ p.2.link ≠ ""))).map
          (fun p => (p.2.title, p.2.link, 1 - (p.1 : Rat) * (1/10)))) ∧
    (∀ (st : ResearchState) (q : String) (res : SerperResponse) (ts n : Nat),
      st.citations.length ≤
        ((updateStateWithResults st q res ts n).1).citations.length) := by
  refine ⟨?_, ?_, ?_⟩
  · intro res n
    cases res with
    | mk organic =>
      cases organic with
      | none => rfl
      | some org => simpa [extractCitationsFromResults] using
          extractAux_length org 0 n
  · intro res n
    cases res with
    | mk organic =>
      cases organic with
      | none => rfl
      | some org => simpa [extractCitationsFromResults, List.enum] using
          extractAux_spec org 0 n
  · intro st q res ts n
    simp [updateStateWithResults]

/-- The queries recorded in a state after a merge: exactly the old ones plus
those incoming queries absent from the exclusion set. -/
theorem mergeAux_mem (l : List SubQuery) :
    ∀ (st : ResearchState) (ex : List String) (q : String),
      q ∈ (mergeSubQueriesAux st ex l).subQueries.map (fun sq => sq.query) ↔
        q ∈ st.subQueries.map (fun sq => sq.query) ∨
          (q ∈ l.map (fun sq => sq.query) ∧ q ∉ ex) := by
  induction l with
  | nil => intro st ex q; simp [mergeSubQueriesAux]
  | cons sq rest ih =>
    intro st ex q
    by_cases hmem : sq.query ∈ ex
    · rw [mergeSubQueriesAux, if_pos hmem, ih]
      constructor
      · rintro (h | ⟨hb, hc⟩)
        · exact Or.inl h
        · exact Or.inr ⟨by simp [hb], hc⟩
      · rintro (h | ⟨hb, hc⟩)
        · exact Or.inl h
        · rcases (by simpa using hb : q = sq.query ∨
              q ∈ rest.map (fun sq => sq.query)) with heq | hb2
          · exact absurd (heq ▸ hmem) hc
          · exact Or.inr ⟨hb2, hc⟩
    · rw [mergeSubQueriesAux, if_neg hmem, ih]
      simp only [List.map_append, List.mem_append, List.map_cons,
        List.mem_cons, List.map_nil, List.mem_singleton, List.mem_map]
      constructor
      · rintro ((h | h) | ⟨hb, hc⟩)
        · exact Or.inl h
        · have heq : q = sq.query := by simpa using h
          exact Or.inr ⟨Or.inl heq, heq ▸ hmem⟩
        · have hc2 : q ≠ sq.query ∧ q ∉ ex := by
            simpa using hc
          exact Or.inr ⟨Or.inr hb, hc2.2⟩
      · rintro (h | ⟨(heq | hb), hc⟩)
        · exact Or.inl (Or.inl h)
        · exact Or.inl (Or.inr (by simp [heq]))
        · by_cases hq : q = sq.query
          · exact Or.inl (Or.inr (by simp [hq]))
          · exact Or.inr ⟨hb, by simp [hq, hc]⟩

/-- A merge only ever grows the known-query set. -/
theorem mergeAux_existing_mono (l : List SubQuery) :
    ∀ (st : ResearchState) (ex : List String) (q : String),
      q ∈ existingQueriesOf st →
      q ∈ existingQueriesOf (mergeSubQueriesAux st ex l) := by
  induction l with
  | nil => intro st ex q h; simpa [mergeSubQueriesAux] using h
  | cons sq rest ih =>
    intro st ex q h
    by_cases hmem : sq.query ∈ ex
    · rw [mergeSubQueriesAux, if_pos hmem]
      exact ih st ex q h
    · rw [mergeSubQueriesAux, if_neg hmem]
      apply ih
      simp only [existingQueriesOf, List.mem_append, List.mem_map] at h ⊢
      tauto

/-- After a merge whose exclusion set is sound for the state, every incoming
query text is in the known-query set of the result. -/
theorem mergeAux_covers (l : List SubQuery) :
    ∀ (st : ResearchState) (ex : List String),
      (∀ x ∈ ex, x ∈ existingQueriesOf st) →
      ∀ sq ∈ l, sq.query ∈ existingQueriesOf (mergeSubQueriesAux st ex l) := by
  induction l with
  | nil => intro st ex _ sq h; cases h
  | cons a rest ih =>
    intro st ex hsub sq hmem
    by_cases ha : a.query ∈ ex
    · rw [mergeSubQueriesAux, if_pos ha]
      rcases List.mem_cons.mp hmem with heq | hrest
      · subst heq
        exact mergeAux_existing_mono rest st ex sq.query (hsub sq.query ha)
      · exact ih st ex hsub sq hrest
    · rw [mergeSubQueriesAux, if_neg ha]
      rcases List.mem_cons.mp hmem with heq | hrest
      · subst heq
        apply mergeAux_existing_mono rest
        simp [existingQueriesOf]
      · apply ih _ _ ?_ sq hrest
        intro x hx
        rcases List.mem_cons.mp hx with hxa | hxex
        · subst hxa
          simp [existingQueriesOf]
        · have := hsub x hxex
          simp only [existingQueriesOf, List.mem_append, List.mem_map] at this ⊢
          tauto

/-- Merging a list all of whose query texts are excluded is a no-op. -/
theorem mergeAux_noop (l : List SubQuery) :
    ∀ (st : ResearchState) (ex : List String),
      (∀ sq ∈ l, sq.query ∈ ex) → mergeSubQueriesAux st ex l = st := by
  induction l with
  | nil => intro st ex _; rfl
  | cons a rest ih =>
    intro st ex h
    rw [mergeSubQueriesAux, if_pos (h a (List.mem_cons_self a rest))]
    exact ih st ex (fun sq hsq => h sq (List.mem_cons_of_mem a hsq))

/-- A merge preserves freedom from duplicate query texts, given an exclusion
set covering the state's recorded sub-query texts. -/
theorem mergeAux_nodup (l : List SubQuery) :
    ∀ (st : ResearchState) (ex : List String),
      (st.subQueries.map (fun sq => sq.query)).Nodup →
      (∀ x ∈ st.subQueries.map (fun sq => sq.query), x ∈ ex) →
      ((mergeSubQueriesAux st ex l).subQueries.map (fun sq => sq.query)).Nodup := by
  induction l with
  | nil => intro st ex hnd _; simpa [mergeSubQueriesAux] using hnd
  | cons a rest ih =>
    intro st ex hnd hsub
    by_cases ha : a.query ∈ ex
    · rw [mergeSubQueriesAux, if_pos ha]
      exact ih st ex hnd hsub
    · rw [mergeSubQueriesAux, if_neg ha]
      apply ih
      · simp only [List.map_append, List.map_cons, List.map_nil]
        rw [List.nodup_append]
        refine ⟨hnd, List.nodup_singleton _, ?_⟩
        intro x hx hx2
        have : x = a.query := by simpa using hx2
        subst this
        exact ha (hsub _ hx)
      · intro x hx
        simp only [List.map_append, List.map_cons, List.map_nil,
          List.mem_append] at hx
        rcases hx with hx | hx
        · exact List.mem_cons_of_mem _ (hsub x hx)
        · have : x = a.query := by simpa using hx
          subst this
          exact List.mem_cons_self _ _

/-- C5: `updateStateWithSubQueries` appends an incoming pair exactly when its
query text is absent from `completedSubQueries ++ pendingSubQueries ++
subQueries` (and from pairs merged earlier in the same call — captured by the
membership equivalence below); merging the same list a second time is a no-op
on the whole state; and a state without duplicate sub-query texts keeps that
property across a double merge.  Mutation-freedom is immediate in the model:
the function is pure and its input state is untouched. -/
theorem updateStateWithSubQueries_dedup :
    (∀ (st : ResearchState) (l : List SubQuery) (q : String),
      q ∈ (updateStateWithSubQueries st l).subQueries.map (fun sq => sq.query) ↔
        q ∈ st.subQueries.map (fun sq => sq.query) ∨
          (q ∈ l.map (fun sq => sq.query) ∧ q ∉ existingQueriesOf st)) ∧
    (∀ (st : ResearchState) (l : List SubQuery),
      updateStateWithSubQueries (updateStateWithSubQueries st l) l =
        updateStateWithSubQueries st l) ∧
    (∀ (st : ResearchState) (l : List SubQuery),
      (st.subQueries.map (fun sq => sq.query)).Nodup →
      ((updateStateWithSubQueries
          (updateStateWithSubQueries st l) l).subQueries.map
            (fun sq => sq.query)).Nodup) := by
  have hidem : ∀ (st : ResearchState) (l : List SubQuery),
      updateStateWithSubQueries (updateStateWithSubQueries st l) l =
        updateStateWithSubQueries st l := by
    intro st l
    apply mergeAux_noop
    intro sq hsq
    exact mergeAux_covers l st (existingQueriesOf st) (fun x hx => hx) sq hsq
  refine ⟨?_, hidem, ?_⟩
  · intro st l q
    exact mergeAux_mem l st (existingQueriesOf st) q
  · intro st l hnd
    rw [hidem st l]
    apply mergeAux_nodup l st (existingQueriesOf st) hnd
    intro x hx
    simp only [existingQueriesOf, List.mem_append]
    exact Or.inr hx

/-- Witness for the C5 theorem at a concrete state and sub-query list. -/
theorem updateStateWithSubQueries_dedup_witness :
    ((initializeState reqBasic).subQueries.map (fun sq => sq.query)).Nodup ∧
      ((updateStateWithSubQueries
          (updateStateWithSubQueries (initializeState reqBasic)
            [⟨0, "a", "r", SQStatus.pending⟩])
          [⟨0, "a", "r", SQStatus.pending⟩]).subQueries.map
          (fun sq => sq.query)).Nodup := by
  refine ⟨by decide, ?_⟩
  exact updateStateWithSubQueries_dedup.2.2 (initializeState reqBasic)
    [⟨0, "a", "r", SQStatus.pending⟩] (by decide)

/-- Bookkeeping component of a step outcome, whether thrown or returned. -/
def exCtx {α : Type} : Except (String × Ctx) (α × Ctx) → Ctx
  | Except.ok (_, c) => c
  | Except.error (_, c) => c

/-- Every trace extends itself by loop events. -/
theorem goodExtension_rfl (a : List Event) : goodExtension a a :=
  ⟨[], by simp, by simp⟩

/-- Appending one loop event is a good extension. -/
theorem goodExtension_single (a : List Event) (e : Event)
    (h : loopEventOk e = true) : goodExtension a (a ++ [e]) :=
  ⟨[e], rfl, by
    intro x hx
    have : x = e := by simpa using hx
    subst this
    exact h⟩

/-- Good extensions compose. -/
theorem goodExtension_trans {a b c : List Event} (h1 : goodExtension a b)
    (h2 : goodExtension b c) : goodExtension a c := by
  obtain ⟨t1, rfl, g1⟩ := h1
  obtain ⟨t2, rfl, g2⟩ := h2
  refine ⟨t1 ++ t2, by simp, ?_⟩
  intro e he
  rcases List.mem_append.mp he with h | h
  · exact g1 e h
  · exact g2 e h

/-- Loop events are never synthesis events. -/
theorem loopEventOk_not_synth (e : Event) (h : loopEventOk e = true) :
    isSynthesisEvent e = false := by
  cases e with
  | search q => rfl
  | llm k t m => cases k <;> simp_all [loopEventOk, isSynthesisEvent]

/-- Loop events use the fixed sampling parameters. -/
theorem loopEventOk_fixed (e : Event) (h : loopEventOk e = true) :
    fixedEvent e = true := by
  cases e with
  | search q => rfl
  | llm k t m => cases k <;> simp_all [loopEventOk, fixedEvent]

/-- A good extension adds no synthesis events. -/
theorem countSynth_goodExtension {a b : List Event} (h : goodExtension a b) :
    countSynth b = countSynth a := by
  obtain ⟨t, rfl, g⟩ := h
  have ht : List.countP isSynthesisEvent t = 0 := by
    rw [List.countP_eq_zero]
    intro e he
    simp [loopEventOk_not_synth e (g e he)]
  simp [countSynth, List.countP_append, ht]

/-- The sub-query generation step only appends its one model call (at the
fixed parameters 0.7/1000) to the trace, on success and on failure alike. -/
theorem generateSubQueries_goodExt (env : Env) (q : String)
    (dep : Option String) (ctx : Ctx) :
    goodExtension ctx.trace (exCtx (generateSubQueries env q dep ctx)).trace := by
  unfold generateSubQueries llmCall
  cases hs : researchDepthSettings (dep.getD "standard") with
  | none => exact goodExtension_rfl _
  | some c =>
    simp only []
    cases hf : (env.llm ctx.nLLM).failure with
    | some m =>
      simp only [hf, exCtx]
      exact goodExtension_single _ _ (by simp [loopEventOk])
    | none =>
      simp only [hf, exCtx]
      exact goodExtension_single _ _ (by simp [loopEventOk])

/-- The decision step only appends its one model call (at the fixed
parameters 0.2/500). -/
theorem makeDecision_goodExt (env : Env) (st : ResearchState) (ctx : Ctx) :
    goodExtension ctx.trace (exCtx (makeDecision env st ctx)).trace := by
  unfold makeDecision llmCall
  cases hf : (env.llm ctx.nLLM).failure with
  | some m =>
    simp only [hf, exCtx]
    exact goodExtension_single _ _ (by simp [loopEventOk])
  | none =>
    simp only [hf, exCtx]
    exact goodExtension_single _ _ (by simp [loopEventOk])

/-- The search step only appends its one search event. -/
theorem searchStep_goodExt (env : Env) (st : ResearchState) (q : String)
    (ctx : Ctx) :
    goodExtension ctx.trace (exCtx (searchStep env st q ctx)).trace := by
  unfold searchStep searchCall
  cases hr : env.search ctx.nSearch with
  | error m =>
    simp only [hr, exCtx]
    exact goodExtension_single _ _ rfl
  | ok payload =>
    simp only [hr, exCtx]
    exact goodExtension_single _ _ rfl

/-- One loop iteration only appends loop events to the trace, whether it
returns or throws. -/
theorem iterate_goodExt (env : Env) (oq : String) (dep : Option String)
    (st : ResearchState) (ctx : Ctx) :
    goodExtension ctx.trace (exCtx (iterate env oq dep st ctx)).trace := by
  unfold iterate
  by_cases h1 : (st.pendingSubQueries.isEmpty && st.subQueries.isEmpty) = true
  · rw [if_pos h1]
    cases hg : generateSubQueries env oq dep ctx with
    | error e =>
      have := generateSubQueries_goodExt env oq dep ctx
      rw [hg] at this
      simpa [exCtx] using this
    | ok p =>
      obtain ⟨sqs, c⟩ := p
      have := generateSubQueries_goodExt env oq dep ctx
      rw [hg] at this
      simpa [exCtx] using this
  · rw [if_neg h1]
    by_cases h2 : st.pendingSubQueries.isEmpty = false
    · rw [if_pos h2]
      exact searchStep_goodExt env st _ ctx
    · rw [if_neg h2]
      cases hd : makeDecision env st ctx with
      | error e =>
        have := makeDecision_goodExt env st ctx
        rw [hd] at this
        simpa [exCtx] using this
      | ok p =>
        obtain ⟨dec, c2⟩ := p
        have hmd := makeDecision_goodExt env st ctx
        rw [hd] at hmd
        simp only [exCtx] at hmd
        dsimp only
        by_cases h3 : dec.action = "search" ∧ truthyOptStr dec.query = true
        · rw [if_pos h3]
          exact goodExtension_trans hmd (searchStep_goodExt env st _ c2)
        · rw [if_neg h3]
          by_cases h4 : dec.action = "generate_subqueries"
          · rw [if_pos h4]
            cases hg : generateSubQueries env oq dep c2 with
            | error e =>
              have := generateSubQueries_goodExt env oq dep c2
              rw [hg] at this
              simp only [exCtx] at this ⊢
              exact goodExtension_trans hmd this
            | ok p2 =>
              obtain ⟨sqs, c3⟩ := p2
              have := generateSubQueries_goodExt env oq dep c2
              rw [hg] at this
              simp only [exCtx] at this ⊢
              exact goodExtension_trans hmd this
          · rw [if_neg h4]
            by_cases h5 : dec.action = "research_complete"
            · rw [if_pos h5]
              simpa [exCtx] using hmd
            · rw [if_neg h5]
              simpa [exCtx] using hmd

/-- The loop performs at most `fuel` iterations. -/
theorem runLoop_iterations_le (env : Env) (oq : String) (dep : Option String) :
    ∀ (fuel : Nat) (st : ResearchState) (ctx : Ctx),
      (runLoop env oq dep fuel st ctx).iterations ≤ fuel := by
  intro fuel
  induction fuel with
  | zero => intro st ctx; simp [runLoop]
  | succ n ih =>
    intro st ctx
    rw [runLoop]
    by_cases hc : st.status = Status.complete
    · rw [if_pos hc]
      simp
    · rw [if_neg hc]
      cases hit : iterate env oq dep st ctx with
      | ok p =>
        obtain ⟨st2, ctx2⟩ := p
        simpa using Nat.succ_le_succ (ih st2 ctx2)
      | error e =>
        obtain ⟨m, ctx2⟩ := e
        cases he : st.searchResults.isEmpty <;> simp [he]

/-- The whole loop only appends loop events to the trace. -/
theorem runLoop_goodExt (env : Env) (oq : String) (dep : Option String) :
    ∀ (fuel : Nat) (st : ResearchState) (ctx : Ctx),
      goodExtension ctx.trace (runLoop env oq dep fuel st ctx).ctx.trace := by
  intro fuel
  induction fuel with
  | zero => intro st ctx; exact goodExtension_rfl _
  | succ n ih =>
    intro st ctx
    rw [runLoop]
    by_cases hc : st.status = Status.complete
    · rw [if_pos hc]
      exact goodExtension_rfl _
    · rw [if_neg hc]
      cases hit : iterate env oq dep st ctx with
      | ok p =>
        obtain ⟨st2, ctx2⟩ := p
        have h1 := iterate_goodExt env oq dep st ctx
        rw [hit] at h1
        simp only [exCtx] at h1
        exact goodExtension_trans h1 (ih st2 ctx2)
      | error e =>
        obtain ⟨m, ctx2⟩ := e
        have h1 := iterate_goodExt env oq dep st ctx
        rw [hit] at h1
        simp only [exCtx] at h1
        cases he : st.searchResults.isEmpty <;> simpa [he] using h1

/-- Synthesis appends exactly one synthesis call at the fixed sampling
parameters 0.3/2000, on success and on failure alike. -/
theorem synthesizeResults_trace (env : Env) (st : ResearchState) (ctx : Ctx) :
    (exCtx (synthesizeResults env st ctx)).trace =
      ctx.trace ++ [Event.llm LLMKind.synthesis (3/10) 2000] := by
  unfold synthesizeResults llmCall
  cases hf : (env.llm ctx.nLLM).failure with
  | some m => simp [hf, exCtx]
  | none => simp [hf, exCtx]

/-- Core run guarantees: the loop iterates at most the configured budget, the
state handed to synthesis is always `complete`, and synthesis is called
exactly once whenever it is reached (and never on the fatal path). -/
theorem executeResearchCore_spec (env : Env) (r : ResearchRequest) :
    (executeResearchCore env r).iterations ≤
        getMaxIterations (jsOrStr r.depth "standard") ∧
      (∀ st, (executeResearchCore env r).finalState = some st →
        st.status = Status.complete) ∧
      countSynth (executeResearchCore env r).trace =
        (if (executeResearchCore env r).finalState.isSome then 1 else 0) := by
  unfold executeResearchCore
  dsimp only
  set lr := runLoop env r.query r.depth
      (getMaxIterations (jsOrStr r.depth "standard")) (initializeState r)
      emptyCtx with hlr
  have hiter : lr.iterations ≤ getMaxIterations (jsOrStr r.depth "standard") := by
    rw [hlr]
    exact runLoop_iterations_le env r.query r.depth _ _ _
  have htrace : countSynth lr.ctx.trace = 0 := by
    have h := runLoop_goodExt env r.query r.depth
      (getMaxIterations (jsOrStr r.depth "standard")) (initializeState r)
      emptyCtx
    rw [← hlr] at h
    have h2 := countSynth_goodExtension h
    simpa [emptyCtx, countSynth] using h2
  cases ho : lr.outcome with
  | error m =>
    dsimp only
    refine ⟨hiter, ?_, ?_⟩
    · intro st h
      simp at h
    · simpa using htrace
  | ok st =>
    dsimp only
    set fs := if st.status = Status.complete then st
        else { st with status := Status.complete } with hfs
    have hfsc : fs.status = Status.complete := by
      rw [hfs]
      by_cases hs : st.status = Status.complete
      · rw [if_pos hs]
        exact hs
      · rw [if_neg hs]
    have hsynth := synthesizeResults_trace env fs lr.ctx
    cases hsyn : synthesizeResults env fs lr.ctx with
    | error p =>
      obtain ⟨m, ctx2⟩ := p
      rw [hsyn] at hsynth
      simp only [exCtx] at hsynth
      dsimp only
      refine ⟨hiter, ?_, ?_⟩
      · intro st' h
        have : fs = st' := by simpa using h
        exact this ▸ hfsc
      · rw [hsynth]
        simp only [countSynth, List.countP_append] at htrace ⊢
        rw [htrace]
        simp [List.countP, List.countP.go, isSynthesisEvent]
    | ok p =>
      obtain ⟨res, ctx2⟩ := p
      rw [hsyn] at hsynth
      simp only [exCtx] at hsynth
      dsimp only
      refine ⟨hiter, ?_, ?_⟩
      · intro st' h
        have : fs = st' := by simpa using h
        exact this ▸ hfsc
      · rw [hsynth]
        simp only [countSynth, List.countP_append] at htrace ⊢
        rw [htrace]
        simp [List.countP, List.countP.go, isSynthesisEvent]

/-- C1: for a valid request at any of the three depths, the loop increments
its counter at entry and performs at most the profile's `maxIterations`
iterations; the state handed to synthesis always has status `complete`
(forced if the budget ran out while still in progress), and synthesis is
invoked exactly once whenever the run reaches it. -/
theorem research_loop_bounded :
    ∀ (env : Env) (q d : String) (ms : Option Rat),
      d ∈ (["basic", "standard", "deep"] : List String) →
      validateRequest ⟨q, some d, ms⟩ = none →
      (executeResearch env ⟨q, some d, ms⟩).iterations ≤ getMaxIterations d ∧
      (∀ st, (executeResearch env ⟨q, some d, ms⟩).finalState = some st →
        st.status = Status.complete) ∧
      countSynth (executeResearch env ⟨q, some d, ms⟩).trace =
        (if (executeResearch env ⟨q, some d, ms⟩).finalState.isSome then 1
         else 0) := by
  intro env q d ms hd hv
  have hrun : executeResearch env ⟨q, some d, ms⟩ =
      executeResearchCore env ⟨q, some d, ms⟩ := by
    unfold executeResearch
    rw [hv]
  have hdd : jsOrStr (some d) "standard" = d := by
    simp only [List.mem_cons, List.not_mem_nil, or_false] at hd
    rcases hd with rfl | rfl | rfl <;> rfl
  have hspec := executeResearchCore_spec env ⟨q, some d, ms⟩
  dsimp only at hspec
  rw [hdd] at hspec
  rw [hrun]
  exact hspec

/-- Witness for the C1 theorem: a concrete valid basic-depth request. -/
theorem research_loop_bounded_witness :
    ("basic" ∈ (["basic", "standard", "deep"] : List String) ∧
        validateRequest ⟨"hello", some "basic", none⟩ = none) ∧
      ((executeResearch envAllFail ⟨"hello", some "basic", none⟩).iterations ≤
          getMaxIterations "basic" ∧
        (∀ st,
          (executeResearch envAllFail ⟨"hello", some "basic", none⟩).finalState =
            some st → st.status = Status.complete) ∧
        countSynth
            (executeResearch envAllFail ⟨"hello", some "basic", none⟩).trace =
          (if (executeResearch envAllFail
                ⟨"hello", some "basic", none⟩).finalState.isSome then 1
           else 0)) :=
  ⟨⟨by decide, by decide⟩,
   research_loop_bounded envAllFail "hello" "basic" none (by decide) (by decide)⟩

/-- C2: an exception inside a loop iteration is caught; with accumulated
search results the loop force-completes with the evidence gathered so far
(and execution proceeds to synthesis), with none it ends the run at once —
no retry — and `executeResearch` surfaces it as the internal-error
`Research failed: <cause>`. -/
theorem partial_failure_policy :
    (∀ (env : Env) (oq : String) (dep : Option String) (fuel : Nat)
        (st : ResearchState) (ctx : Ctx) (m : String) (ctx2 : Ctx),
      iterate env oq dep st ctx = Except.error (m, ctx2) →
      st.status ≠ Status.complete →
      ((st.searchResults ≠ [] →
          runLoop env oq dep (fuel + 1) st ctx =
            ⟨Except.ok { st with status := Status.complete }, ctx2, 1⟩) ∧
        (st.searchResults = [] →
          runLoop env oq dep (fuel + 1) st ctx =
            ⟨Except.error m, ctx2, 1⟩))) ∧
    (∀ (env : Env) (r : ResearchRequest) (m : String),
      validateRequest r = none →
      (runLoop env r.query r.depth
          (getMaxIterations (jsOrStr r.depth "standard")) (initializeState r)
          emptyCtx).outcome = Except.error m →
      (executeResearch env r).result =
        Except.error (EngineError.mcp ErrCode.internalError
          ("Research failed: " ++ m))) ∧
    (∀ (env : Env) (r : ResearchRequest) (st : ResearchState),
      validateRequest r = none →
      (runLoop env r.query r.depth
          (getMaxIterations (jsOrStr r.depth "standard")) (initializeState r)
          emptyCtx).outcome = Except.ok st →
      st.status = Status.complete →
      (executeResearch env r).finalState = some st) := by
  refine ⟨?_, ?_, ?_⟩
  · intro env oq dep fuel st ctx m ctx2 hit hst
    rw [runLoop, if_neg hst, hit]
    dsimp only
    constructor
    · intro hne
      have hie : st.searchResults.isEmpty = false := by
        cases hsr : st.searchResults with
        | nil => exact absurd hsr hne
        | cons a t => rfl
      simp [hie]
    · intro heq
      have hie : st.searchResults.isEmpty = true := by
        rw [heq]
        rfl
      simp [hie]
  · intro env r m hv hloop
    unfold executeResearch
    rw [hv]
    unfold executeResearchCore
    dsimp only
    rw [hloop]
  · intro env r st hv hloop hst
    unfold executeResearch
    rw [hv]
    unfold executeResearchCore
    dsimp only
    rw [hloop]
    dsimp only
    rw [if_pos hst]
    split <;> rfl

/-- Witness for the C2 theorem: a first iteration whose model call rejects on
a state with no accumulated evidence (fatal path, wrapped error), and a run
whose loop ends successfully (synthesis receives its final state). -/
theorem partial_failure_policy_witness :
    ((iterate envAllFail "q" none (initializeState ⟨"q", none, none⟩) emptyCtx =
        Except.error ("boom",
          ⟨1, 0, 0, [Event.llm LLMKind.subqueries (7/10) 1000]⟩) ∧
      (initializeState ⟨"q", none, none⟩).status ≠ Status.complete) ∧
      (((initializeState ⟨"q", none, none⟩).searchResults ≠ [] →
          runLoop envAllFail "q" none (0 + 1)
              (initializeState ⟨"q", none, none⟩) emptyCtx =
            ⟨Except.ok { initializeState ⟨"q", none, none⟩ with
                status := Status.complete },
             ⟨1, 0, 0, [Event.llm LLMKind.subqueries (7/10) 1000]⟩, 1⟩) ∧
        ((initializeState ⟨"q", none, none⟩).searchResults = [] →
          runLoop envAllFail "q" none (0 + 1)
              (initializeState ⟨"q", none, none⟩) emptyCtx =
            ⟨Except.error "boom",
             ⟨1, 0, 0, [Event.llm LLMKind.subqueries (7/10) 1000]⟩, 1⟩))) ∧
      (executeResearch envAllFail ⟨"q", none, none⟩).result =
        Except.error (EngineError.mcp ErrCode.internalError
          "Research failed: boom") ∧
      (executeResearch envNoParse ⟨"q", none, none⟩).finalState =
        some stFinalNoParse :=
  ⟨⟨⟨rfl, by decide⟩,
    partial_failure_policy.1 envAllFail "q" none 0
      (initializeState ⟨"q", none, none⟩) emptyCtx "boom"
      ⟨1, 0, 0, [Event.llm LLMKind.subqueries (7/10) 1000]⟩ rfl (by decide)⟩,
   partial_failure_policy.2.1 envAllFail ⟨"q", none, none⟩ "boom" rfl rfl,
   partial_failure_policy.2.2 envNoParse ⟨"q", none, none⟩ stFinalNoParse
     rfl rfl rfl⟩

/-- Every event of a core run uses the fixed sampling parameters. -/
theorem executeResearchCore_trace_fixed (env : Env) (r : ResearchRequest) :
    ∀ e ∈ (executeResearchCore env r).trace, fixedEvent e = true := by
  unfold executeResearchCore
  dsimp only
  set lr := runLoop env r.query r.depth
      (getMaxIterations (jsOrStr r.depth "standard")) (initializeState r)
      emptyCtx with hlr
  have hloop : ∀ e ∈ lr.ctx.trace, loopEventOk e = true := by
    have h := runLoop_goodExt env r.query r.depth
      (getMaxIterations (jsOrStr r.depth "standard")) (initializeState r)
      emptyCtx
    rw [← hlr] at h
    obtain ⟨t, ht, hg⟩ := h
    intro e he
    rw [ht] at he
    simp only [emptyCtx, List.nil_append] at he
    exact hg e he
  cases ho : lr.outcome with
  | error m =>
    dsimp only
    intro e he
    exact loopEventOk_fixed e (hloop e he)
  | ok st =>
    dsimp only
    set fs := if st.status = Status.complete then st
        else { st with status := Status.complete } with hfs
    have hsynth := synthesizeResults_trace env fs lr.ctx
    cases hsyn : synthesizeResults env fs lr.ctx with
    | error p =>
      obtain ⟨m, ctx2⟩ := p
      rw [hsyn] at hsynth
      simp only [exCtx] at hsynth
      dsimp only
      intro e he
      rw [hsynth] at he
      rcases List.mem_append.mp he with h | h
      · exact loopEventOk_fixed e (hloop e h)
      · have : e = Event.llm LLMKind.synthesis (3/10) 2000 := by simpa using h
        subst this
        simp [fixedEvent]
    | ok p =>
      obtain ⟨res, ctx2⟩ := p
      rw [hsyn] at hsynth
      simp only [exCtx] at hsynth
      dsimp only
      intro e he
      rw [hsynth] at he
      rcases List.mem_append.mp he with h | h
      · exact loopEventOk_fixed e (hloop e h)
      · have : e = Event.llm LLMKind.synthesis (3/10) 2000 := by simpa using h
        subst this
        simp [fixedEvent]

/-- C7 counterexample: a full basic-depth run makes its decision call at
temperature 0.2 and its synthesis call at temperature 0.3 (as recorded in the
trace), while the basic profile's configured decision and synthesis
temperatures are 0.3 and 0.4 — the services ignore the per-depth temperature
configuration. -/
theorem sampling_params_ignore_depth :
    (executeResearch envBasicRun reqBasic).trace =
      [Event.llm LLMKind.subqueries (7/10) 1000, Event.search "s1",
       Event.llm LLMKind.decision (1/5) 500,
       Event.llm LLMKind.synthesis (3/10) 2000] ∧
      (settingsOf Depth.basic).temperature.decision = 3/10 ∧
      (settingsOf Depth.basic).temperature.synthesis = 2/5 ∧
      ¬((1/5 : Rat) = 3/10) ∧ ¬((3/10 : Rat) = 2/5) := by
  refine ⟨rfl, rfl, rfl, by norm_num, by norm_num⟩

/-- C7 (amended): for every request and environment, every language-model
call of the run uses fixed sampling parameters independent of the depth:
decision calls at temperature 0.2 with maxTokens 500, sub-query calls at 0.7
with 1000, synthesis calls at 0.3 with 2000. -/
theorem sampling_params_fixed :
    ∀ (env : Env) (r : ResearchRequest) (e : Event),
      e ∈ (executeResearch env r).trace → fixedEvent e = true := by
  intro env r e he
  unfold executeResearch at he
  cases hv : validateRequest r with
  | some err =>
    rw [hv] at he
    dsimp only at he
    exact absurd he (List.not_mem_nil e)
  | none =>
    rw [hv] at he
    exact executeResearchCore_trace_fixed env r e he

/-- Witness for the amended C7 theorem: the decision call of the concrete
basic-depth run. -/
theorem sampling_params_fixed_witness :
    Event.llm LLMKind.decision (1/5) 500 ∈
        (executeResearch envBasicRun reqBasic).trace ∧
      fixedEvent (Event.llm LLMKind.decision (1/5) 500) = true := by
  have h : (executeResearch envBasicRun reqBasic).trace =
      [Event.llm LLMKind.subqueries (7/10) 1000, Event.search "s1",
       Event.llm LLMKind.decision (1/5) 500,
       Event.llm LLMKind.synthesis (3/10) 2000] := rfl
  have hmem : Event.llm LLMKind.decision (1/5) 500 ∈
      (executeResearch envBasicRun reqBasic).trace := by
    rw [h]
    exact List.mem_cons_of_mem _ (List.mem_cons_of_mem _
      (List.mem_cons_self _ _))
  exact ⟨hmem, sampling_params_fixed envBasicRun reqBasic _ hmem⟩

/-- C9 counterexample: `maxSources = 0` is present and not positive, yet the
request passes validation (JavaScript `request.maxSources && ...` skips the
check for the falsy number 0) and the engine proceeds to create state and
call the language-model port. -/
theorem maxSources_zero_not_rejected :
    validateRequest reqZeroSources = none ∧
      (executeResearch envAllFail reqZeroSources).trace =
        [Event.llm LLMKind.subqueries (7/10) 1000] ∧
      ((0 : Rat) < 1) := by
  refine ⟨rfl, rfl, by norm_num⟩

/-- C9 (amended): a request passes validation exactly when its trimmed query
is non-empty, its depth — when present and non-empty (the empty string is
falsy and skips the check) — is one of the three labels, and its maxSources —
when present and non-zero (zero is falsy and skips the check) — is at least
one; when validation rejects, `executeResearch` returns that invalid-params
error with no loop iteration, no port call and no state handed to synthesis. -/
theorem validateRequest_characterization :
    ∀ (env : Env) (r : ResearchRequest),
      (validateRequest r = none ↔
        (jsTrim r.query ≠ "" ∧
          (∀ dpt, r.depth = some dpt →
            dpt = "" ∨ dpt = "basic" ∨ dpt = "standard" ∨ dpt = "deep") ∧
          (∀ q, r.maxSources = some q → q = 0 ∨ 1 ≤ q))) ∧
      (∀ e, validateRequest r = some e →
        executeResearch env r = ⟨Except.error e, [], 0, none⟩) := by
  intro env r
  obtain ⟨qs, dep, ms⟩ := r
  constructor
  · have harith : ∀ x : Rat, ¬(x ≠ 0 ∧ x < 1) ↔ (x = 0 ∨ 1 ≤ x) := fun x => by
      rw [not_and_or, not_not, not_lt]
    by_cases h1 : jsTrim qs = ""
    · simp [validateRequest, h1]
    · cases dep with
      | none =>
        cases ms with
        | none => simp [validateRequest, truthyOptStr, h1]
        | some q =>
          by_cases h2 : q ≠ 0 ∧ q < 1
          · have h3 : ¬(q = 0 ∨ 1 ≤ q) := by
              rw [← harith q, not_not]
              exact h2
            simp [validateRequest, truthyOptStr, h1, h2, h3]
          · have h3 : q = 0 ∨ 1 ≤ q := (harith q).mp h2
            simp [validateRequest, truthyOptStr, h1, h2, h3]
      | some s =>
        by_cases hs : s = ""
        · subst hs
          cases ms with
          | none => simp [validateRequest, truthyOptStr, h1]
          | some q =>
            by_cases h2 : q ≠ 0 ∧ q < 1
            · have h3 : ¬(q = 0 ∨ 1 ≤ q) := by
                rw [← harith q, not_not]
                exact h2
              simp [validateRequest, truthyOptStr, h1, h2, h3]
            · have h3 : q = 0 ∨ 1 ≤ q := (harith q).mp h2
              simp [validateRequest, truthyOptStr, h1, h2, h3]
        · by_cases hv : s = "basic" ∨ s = "standard" ∨ s = "deep"
          · cases ms with
            | none => simp [validateRequest, truthyOptStr, h1, hs, hv]
            | some q =>
              by_cases h2 : q ≠ 0 ∧ q < 1
              · have h3 : ¬(q = 0 ∨ 1 ≤ q) := by
                  rw [← harith q, not_not]
                  exact h2
                simp [validateRequest, truthyOptStr, h1, hs, hv, h2, h3]
              · have h3 : q = 0 ∨ 1 ≤ q := (harith q).mp h2
                simp [validateRequest, truthyOptStr, h1, hs, hv, h2, h3]
          · cases ms with
            | none => simp [validateRequest, truthyOptStr, h1, hs, hv]
            | some q => simp [validateRequest, truthyOptStr, h1, hs, hv]
  · intro e h
    unfold executeResearch
    rw [h]

/-- Witness for the amended C9 theorem: the empty-query request is rejected
with the invalid-params error and the run performs nothing. -/
theorem validateRequest_characterization_witness :
    validateRequest reqEmptyQuery =
        some (EngineError.mcp ErrCode.invalidParams "Query must be non-empty") ∧
      executeResearch envAllFail reqEmptyQuery =
        ⟨Except.error (EngineError.mcp ErrCode.invalidParams
            "Query must be non-empty"), [], 0, none⟩ :=
  ⟨rfl, (validateRequest_characterization envAllFail reqEmptyQuery).2 _ rfl⟩

/-- C10: two requests differing only in `maxSources`, both passing
validation, produce identical runs — result, trace of search and model
operations, iteration count and final state alike — because `maxSources` is
read only by `validateRequest`. -/
theorem maxSources_no_influence :
    ∀ (env : Env) (q : String) (dep : Option String) (m1 m2 : Option Rat),
      validateRequest ⟨q, dep, m1⟩ = none →
      validateRequest ⟨q, dep, m2⟩ = none →
      executeResearch env ⟨q, dep, m1⟩ = executeResearch env ⟨q, dep, m2⟩ := by
  intro env q dep m1 m2 h1 h2
  unfold executeResearch
  rw [h1, h2]
  rfl

/-- Witness for the C10 theorem: two concrete requests with maxSources 5 and
99. -/
theorem maxSources_no_influence_witness :
    validateRequest ⟨"q", none, some 5⟩ = none ∧
      validateRequest ⟨"q", none, some 99⟩ = none ∧
      executeResearch envAllFail ⟨"q", none, some 5⟩ =
        executeResearch envAllFail ⟨"q", none, some 99⟩ :=
  ⟨rfl, rfl,
   maxSources_no_influence envAllFail "q" none (some 5) (some 99) rfl rfl⟩
